import Mathlib

/-!
Shallow embedding of the cloud-resource teardown and recreation-verification
code of this repository: the listener reaper (src/Dltlist.go), the target-group
reaper and its call site (src/Fix.go), and the enhanced cleanup sequence,
security-group loop, deletion wait and recreation poll (src/unnamed/part_000).

Provider clients are modelled as structures of response functions; every
embedded operation additionally returns the list of provider calls it issued,
in issue order, so that call-counting and ordering properties can be stated.
-/

deriving instance DecidableEq for Except

namespace RR

/-- A load balancer record as returned by DescribeLoadBalancers. -/
structure LoadBalancer where
  loadBalancerArn : String
deriving DecidableEq, Repr

/-- A listener record as returned by DescribeListeners. -/
structure Listener where
  listenerArn : String
deriving DecidableEq, Repr

/-- A target-group record as returned by DescribeTargetGroups. -/
structure TargetGroup where
  targetGroupArn : String
deriving DecidableEq, Repr

/-- The elbv2 client: each provider operation maps its request to a response,
an error being the Except.error case (the AWS SDK returns (output, err)). -/
structure ELBV2 where
  describeLoadBalancers : List String → Except String (List LoadBalancer)
  describeListeners : String → Except String (List Listener)
  deleteListener : String → Except String Unit
  describeTargetGroups : String → Except String (List TargetGroup)
  deleteTargetGroup : String → Except String Unit

/-- The ec2 client, reduced to the single operation the cleanup sequence uses. -/
structure EC2 where
  deleteSecurityGroup : String → Except String Unit

/-- One provider API call, recorded with the request it carried. -/
inductive ApiCall where
  | describeLoadBalancers (names : List String)
  | describeListeners (lbArn : String)
  | deleteListener (listenerArn : String)
  | describeTargetGroups (lbArn : String)
  | deleteTargetGroup (targetGroupArn : String)
  | deleteSecurityGroup (groupId : String)
  | waitUntilLoadBalancerDeleted (names : List String)
deriving DecidableEq, Repr

/-- Outcome of running a Go function that may panic at runtime:
either a runtime panic (such as an out-of-range slice index) or a value. -/
inductive GoResult (α : Type) where
  | runtimePanic (msg : String)
  | value (a : α)
deriving DecidableEq, Repr

/-- The delete loop of deleteListeners (src/Dltlist.go lines 18 to 25): delete
each listed listener in order, returning the first error; the issued
DeleteListener calls are recorded, including the failing one. -/
def deleteListenerLoop (svc : ELBV2) : List Listener → Except String Unit × List ApiCall
  | [] => (.ok (), [])
  | l :: rest =>
    match svc.deleteListener l.listenerArn with
    | .error e => (.error e, [.deleteListener l.listenerArn])
    | .ok _ =>
      let r := deleteListenerLoop svc rest
      (r.1, .deleteListener l.listenerArn :: r.2)

/-- Embedding of deleteListeners (src/Dltlist.go): describe the load balancer
by name, propagating a describe error; index element 0 of the returned slice
unconditionally (a Go runtime panic when the slice is empty); list the
listeners of that ARN, propagating an error; then delete each listener,
stopping at the first failure. -/
def deleteListeners (svc : ELBV2) (lbName : String) :
    GoResult (Except String Unit) × List ApiCall :=
  match svc.describeLoadBalancers [lbName] with
  | .error e => (.value (.error e), [.describeLoadBalancers [lbName]])
  | .ok lbs =>
    match lbs with
    | [] => (.runtimePanic "runtime error: index out of range",
             [.describeLoadBalancers [lbName]])
    | lb :: _ =>
      match svc.describeListeners lb.loadBalancerArn with
      | .error e =>
          (.value (.error e),
           [.describeLoadBalancers [lbName], .describeListeners lb.loadBalancerArn])
      | .ok listeners =>
        let r := deleteListenerLoop svc listeners
        (.value r.1,
         .describeLoadBalancers [lbName] :: .describeListeners lb.loadBalancerArn :: r.2)

/-- The delete loop of cleanupTargetGroups (src/Fix.go): delete each listed
target group in order, returning at the first failure with a wrapped error
message; issued DeleteTargetGroup calls are recorded, including the failing
one. -/
def deleteTargetGroupLoop (svc : ELBV2) : List TargetGroup → Except String Unit × List ApiCall
  | [] => (.ok (), [])
  | tg :: rest =>
    match svc.deleteTargetGroup tg.targetGroupArn with
    | .error e =>
        (.error ("failed to delete target group " ++ tg.targetGroupArn ++ ": " ++ e),
         [.deleteTargetGroup tg.targetGroupArn])
    | .ok _ =>
      let r := deleteTargetGroupLoop svc rest
      (r.1, .deleteTargetGroup tg.targetGroupArn :: r.2)

/-- Embedding of cleanupTargetGroups (src/Fix.go): the DescribeTargetGroups
request is keyed by its LoadBalancerArn field, and the function fills that
field with the lbName argument itself, with no prior resolution of the name
to an ARN. A describe error is wrapped and returned; otherwise each listed
target group is deleted until the first failure. -/
def cleanupTargetGroups (svc : ELBV2) (lbName : String) :
    Except String Unit × List ApiCall :=
  match svc.describeTargetGroups lbName with
  | .error e => (.error ("failed to list target groups: " ++ e), [.describeTargetGroups lbName])
  | .ok tgs =>
    let r := deleteTargetGroupLoop svc tgs
    (r.1, .describeTargetGroups lbName :: r.2)

/-- Embedding of the cleanupTargetGroups call site of src/Fix.go (Enhanced
Cleanup Logic): an error from cleanupTargetGroups is logged as a warning and
not propagated. Returns the logged warning, if any, with the calls issued. -/
def targetGroupCleanupStage (svc : ELBV2) (lbName : String) :
    Option String × List ApiCall :=
  let r := cleanupTargetGroups svc lbName
  match r.1 with
  | .error e => (some ("Warning: Target group cleanup failed: " ++ e), r.2)
  | .ok _ => (none, r.2)

/-- The DeleteListener calls of a trace, in order. -/
def listenerDeleteCalls (tr : List ApiCall) : List String :=
  tr.filterMap fun c =>
    match c with
    | .deleteListener a => some a
    | _ => none

/-- The DeleteTargetGroup calls of a trace, in order. -/
def targetGroupDeleteCalls (tr : List ApiCall) : List String :=
  tr.filterMap fun c =>
    match c with
    | .deleteTargetGroup a => some a
    | _ => none

/-- Embedding of the security-group deletion loop of the enhanced cleanup
sequence (src/unnamed/part_000, section 4): every supplied identifier is
passed to DeleteSecurityGroup; a failure is recorded as a logged warning and
the loop continues. Returns the issued calls and the logged warnings; the
loop produces no error value at all. -/
def deleteSecurityGroups (svc : EC2) : List String → List ApiCall × List String
  | [] => ([], [])
  | sgID :: rest =>
    let warn :=
      match svc.deleteSecurityGroup sgID with
      | .error e => ["Warning: Failed to delete SG " ++ sgID ++ ": " ++ e]
      | .ok _ => []
    let r := deleteSecurityGroups svc rest
    (.deleteSecurityGroup sgID :: r.1, warn ++ r.2)

/-- Terminal outcome of the load-balancer deletion waiter. -/
inductive WaiterOutcome where
  | confirmedAbsent
  | deadlineExceeded
deriving DecidableEq, Repr

/-- Modelled from the spec: the body of WaitUntilLoadBalancerDeleted is AWS
SDK code, not part of this repository; per the spec (section 4.4) the waiter
polls a describe call on a fixed interval, bounded by a maximum wait. The
describable argument gives, per tick, whether the load balancer is still
describable; the waiter confirms absence at the first tick where it is not,
and reports the deadline exceeded when the tick budget runs out first. -/
def waiterLoop (describable : Nat → Bool) : Nat → Nat → WaiterOutcome
  | _, 0 => .deadlineExceeded
  | tick, fuel + 1 =>
    if describable tick then waiterLoop describable (tick + 1) fuel
    else .confirmedAbsent

/-- Embedding of the WaitUntilLoadBalancerDeleted call site of
src/unnamed/part_000 (section 4, step 4): the waiter error is logged and
swallowed; a deadline overrun yields only a log line. -/
def waitStage (describable : Nat → Bool) (deadline : Nat) :
    WaiterOutcome × List String :=
  match waiterLoop describable 0 deadline with
  | .deadlineExceeded => (.deadlineExceeded, ["LB deletion wait failed"])
  | .confirmedAbsent => (.confirmedAbsent, [])

/-- Embedding of one tick of the recreation poll callback
(src/unnamed/part_000, section 5): resolve the current load balancer of the
service, treating a resolver error as not-yet (retry); then describe the old
load-balancer name, and if that describe succeeds report not-yet; otherwise
report done exactly when the resolved name is non-empty and differs from the
old name. The callback never returns an error value (second component). -/
def recreationTick (resolve : Except String String) (describeOld : Except String Unit)
    (oldLBName : String) : Bool × Option String :=
  match resolve with
  | .error _ => (false, none)
  | .ok newLBName =>
    match describeOld with
    | .ok _ => (false, none)
    | .error _ => (newLBName != "" && newLBName != oldLBName, none)

/-- Terminal outcome of a bounded poll loop. -/
inductive PollOutcome where
  | confirmed
  | timedOut
  | failed (e : String)
deriving DecidableEq, Repr

/-- Embedding of wait.PollUntilContextTimeout as used in
src/unnamed/part_000 (section 5): run the tick callback on a fixed interval;
a tick error aborts the poll, a true tick confirms, and exhausting the tick
budget times out. -/
def pollLoop (tickAt : Nat → Bool × Option String) : Nat → Nat → PollOutcome
  | _, 0 => .timedOut
  | tick, fuel + 1 =>
    match tickAt tick with
    | (_, some e) => .failed e
    | (true, none) => .confirmed
    | (false, none) => pollLoop tickAt (tick + 1) fuel

/-- The stage a traced call belongs to, in the enhanced cleanup sequence. -/
inductive StageTag where
  | listeners
  | targetGroups
  | securityGroups
  | waitDeleted
deriving DecidableEq, Repr

/-- Position of a stage in the fixed cleanup order. -/
def StageTag.rank : StageTag → Nat
  | .listeners => 0
  | .targetGroups => 1
  | .securityGroups => 2
  | .waitDeleted => 3

/-- Result of one run of the enhanced cleanup sequence: the fatal failure
that aborted the test, if any (a failed ginkgo expectation or a runtime
panic); the stage-tagged provider calls issued, in issue order; the
warnings logged along the way; and the waiter outcome when reached. -/
structure CleanupRun where
  fatal : Option String
  trace : List (StageTag × ApiCall)
  warnings : List String
  waiterOutcome : Option WaiterOutcome
deriving Repr

/-- Embedding of the Enhanced Cleanup Sequence of src/unnamed/part_000
(section 4): delete listeners, a failure aborting the test; clean up target
groups, a failure aborting the test; delete each orphan security group,
failures logged and skipped; then wait for the load balancer to be deleted,
a waiter error only logged. -/
def enhancedCleanup (elbv2Svc : ELBV2) (ec2Svc : EC2) (describableOld : Nat → Bool)
    (waitDeadline : Nat) (oldLBName : String) (orphanSecGroupIds : List String) :
    CleanupRun :=
  let dl := deleteListeners elbv2Svc oldLBName
  let tr1 := dl.2.map fun c => (StageTag.listeners, c)
  match dl.1 with
  | .runtimePanic msg =>
      { fatal := some msg, trace := tr1, warnings := [], waiterOutcome := none }
  | .value (.error e) =>
      { fatal := some ("Failed to delete listeners: " ++ e), trace := tr1,
        warnings := [], waiterOutcome := none }
  | .value (.ok _) =>
    let tg := cleanupTargetGroups elbv2Svc oldLBName
    let tr2 := tr1 ++ tg.2.map fun c => (StageTag.targetGroups, c)
    match tg.1 with
    | .error e =>
        { fatal := some ("Failed to clean up target groups: " ++ e), trace := tr2,
          warnings := [], waiterOutcome := none }
    | .ok _ =>
      let sg := deleteSecurityGroups ec2Svc orphanSecGroupIds
      let tr3 := tr2 ++ sg.1.map fun c => (StageTag.securityGroups, c)
      let w := waitStage describableOld waitDeadline
      { fatal := none,
        trace := tr3 ++ [(StageTag.waitDeleted,
                          ApiCall.waitUntilLoadBalancerDeleted [oldLBName])],
        warnings := sg.2 ++ w.2,
        waiterOutcome := some w.1 }

/-- The flow of the test around the cleanup (src/unnamed/part_000): the
enhanced cleanup sequence runs first; if it did not abort the test, the
recreation poll runs, its per-tick inputs being the resolver result and the
describe result of the old name at that tick. -/
def testFlow (elbv2Svc : ELBV2) (ec2Svc : EC2) (describableOld : Nat → Bool)
    (waitDeadline : Nat) (oldLBName : String) (orphanSecGroupIds : List String)
    (resolveAt : Nat → Except String String) (describeOldAt : Nat → Except String Unit)
    (pollDeadline : Nat) : CleanupRun × Option PollOutcome :=
  let run := enhancedCleanup elbv2Svc ec2Svc describableOld waitDeadline oldLBName
    orphanSecGroupIds
  match run.fatal with
  | some _ => (run, none)
  | none =>
      (run, some (pollLoop
        (fun t => recreationTick (resolveAt t) (describeOldAt t) oldLBName)
        0 pollDeadline))

/-! Concrete provider fixtures used by counterexamples and witnesses. -/

/-- A provider on which every DescribeLoadBalancers call fails because the
load balancer no longer exists. -/
def svcLBGone : ELBV2 where
  describeLoadBalancers := fun _ => .error "LoadBalancerNotFound"
  describeListeners := fun _ => .ok []
  deleteListener := fun _ => .ok ()
  describeTargetGroups := fun _ => .ok []
  deleteTargetGroup := fun _ => .ok ()

/-- A provider whose DescribeLoadBalancers call succeeds with an empty list. -/
def svcEmptyDescribe : ELBV2 where
  describeLoadBalancers := fun _ => .ok []
  describeListeners := fun _ => .ok []
  deleteListener := fun _ => .ok ()
  describeTargetGroups := fun _ => .ok []
  deleteTargetGroup := fun _ => .ok ()

/-- A provider holding one load balancer with two listeners; every deletion
succeeds. -/
def svcTwoListeners : ELBV2 where
  describeLoadBalancers := fun _ => .ok [⟨"arn-old"⟩]
  describeListeners := fun _ => .ok [⟨"l-1"⟩, ⟨"l-2"⟩]
  deleteListener := fun _ => .ok ()
  describeTargetGroups := fun _ => .ok []
  deleteTargetGroup := fun _ => .ok ()

/-! Helper lemmas about the listener delete loop. -/

/-- When every deletion succeeds, the listener delete loop succeeds and issues
one DeleteListener call per listed listener, in listing order. -/
lemma deleteListenerLoop_all_ok (svc : ELBV2) (ls : List Listener)
    (h : ∀ l ∈ ls, svc.deleteListener l.listenerArn = .ok ()) :
    deleteListenerLoop svc ls =
      (.ok (), ls.map fun l => ApiCall.deleteListener l.listenerArn) := by
  induction ls with
  | nil => rfl
  | cons l rest ih =>
    have hl := h l (by simp)
    have hr := ih fun x hx => h x (by simp [hx])
    simp [deleteListenerLoop, hl, hr]

/-- Projecting the DeleteListener calls out of a pure delete trace recovers
the listener ARNs. -/
lemma listenerDeleteCalls_map_delete (ls : List Listener) :
    listenerDeleteCalls (ls.map fun l => ApiCall.deleteListener l.listenerArn) =
      ls.map Listener.listenerArn := by
  induction ls with
  | nil => rfl
  | cons l rest ih =>
    simpa [listenerDeleteCalls] using ih

/-- C1, counterexample: on a provider where resolution fails because the load
balancer no longer exists, deleteListeners returns that error, not success —
refuting the claim that it reports success with zero listeners deleted. -/
theorem deleteListeners_absent_lb_returns_error_cex :
    (deleteListeners svcLBGone "lb-old").1 =
      GoResult.value (Except.error "LoadBalancerNotFound") ∧
    (deleteListeners svcLBGone "lb-old").1 ≠ GoResult.value (Except.ok ()) := by
  constructor
  · rfl
  · decide

/-- C1, amended: for every load-balancer name whose resolution
(DescribeLoadBalancers) fails, deleteListeners propagates the resolution
error to its caller and deletes zero listeners: the only provider call it
issues is the describe itself. -/
theorem deleteListeners_resolution_error_propagates (svc : ELBV2) (lbName e : String)
    (h : svc.describeLoadBalancers [lbName] = .error e) :
    deleteListeners svc lbName =
      (GoResult.value (Except.error e), [ApiCall.describeLoadBalancers [lbName]]) := by
  simp [deleteListeners, h]

/-- C1, witness for the amended claim at a concrete provider. -/
theorem deleteListeners_resolution_error_propagates_witness :
    deleteListeners svcLBGone "lb-old" =
      (GoResult.value (Except.error "LoadBalancerNotFound"),
       [ApiCall.describeLoadBalancers ["lb-old"]]) :=
  deleteListeners_resolution_error_propagates svcLBGone "lb-old" "LoadBalancerNotFound" rfl

/-- C10: after a successful DescribeLoadBalancers call, deleteListeners
indexes element 0 of the returned slice unconditionally; with at least one
load balancer in the response no runtime panic is possible, and with an
empty response the access is out of bounds and the function panics. -/
theorem deleteListeners_index_zero_safety (svc : ELBV2) (lbName : String)
    (lbs : List LoadBalancer) (h : svc.describeLoadBalancers [lbName] = .ok lbs) :
    (lbs ≠ [] → ∀ msg, (deleteListeners svc lbName).1 ≠ GoResult.runtimePanic msg) ∧
    (lbs = [] →
      (deleteListeners svc lbName).1 =
        GoResult.runtimePanic "runtime error: index out of range") := by
  constructor
  · intro hne msg
    match lbs, hne with
    | lb :: rest, _ =>
      simp only [deleteListeners, h]
      cases hdl : svc.describeListeners lb.loadBalancerArn <;> simp
  · intro he
    subst he
    simp [deleteListeners, h]

/-- C10, witness: on a provider whose describe succeeds with an empty list,
deleteListeners panics with the out-of-range message. -/
theorem deleteListeners_index_zero_safety_witness :
    (deleteListeners svcEmptyDescribe "lb-x").1 =
      GoResult.runtimePanic "runtime error: index out of range" :=
  (deleteListeners_index_zero_safety svcEmptyDescribe "lb-x" [] rfl).2 rfl

/-- C7: when the load balancer resolves, its listeners list as ls, and every
deletion succeeds, deleteListeners returns success and issues exactly one
DeleteListener call per listed listener — the delete calls of its trace are
exactly the listener ARNs, in order, with no duplicates and no omissions
beyond those of the listing itself. -/
theorem deleteListeners_exactly_one_delete_per_listener (svc : ELBV2) (lbName : String)
    (lb : LoadBalancer) (rest : List LoadBalancer) (ls : List Listener)
    (hdesc : svc.describeLoadBalancers [lbName] = .ok (lb :: rest))
    (hls : svc.describeListeners lb.loadBalancerArn = .ok ls)
    (hdel : ∀ l ∈ ls, svc.deleteListener l.listenerArn = .ok ()) :
    (deleteListeners svc lbName).1 = GoResult.value (Except.ok ()) ∧
    listenerDeleteCalls (deleteListeners svc lbName).2 = ls.map Listener.listenerArn := by
  have hloop := deleteListenerLoop_all_ok svc ls hdel
  constructor
  · simp [deleteListeners, hdesc, hls, hloop]
  · have htr : (deleteListeners svc lbName).2 =
        ApiCall.describeLoadBalancers [lbName] ::
          ApiCall.describeListeners lb.loadBalancerArn ::
            (ls.map fun l => ApiCall.deleteListener l.listenerArn) := by
      simp [deleteListeners, hdesc, hls, hloop]
    rw [htr]
    show listenerDeleteCalls (ls.map fun l => ApiCall.deleteListener l.listenerArn) =
      ls.map Listener.listenerArn
    exact listenerDeleteCalls_map_delete ls

/-- C7, witness: a load balancer with two listeners, both deletions
succeeding, yields success and exactly the two delete calls. -/
theorem deleteListeners_exactly_one_delete_per_listener_witness :
    (deleteListeners svcTwoListeners "lb-old").1 = GoResult.value (Except.ok ()) ∧
    listenerDeleteCalls (deleteListeners svcTwoListeners "lb-old").2 = ["l-1", "l-2"] := by
  have h := deleteListeners_exactly_one_delete_per_listener svcTwoListeners "lb-old"
    ⟨"arn-old"⟩ [] [⟨"l-1"⟩, ⟨"l-2"⟩] rfl rfl (by decide)
  simpa using h

/-- C2: on any tick of the recreation poll, if the old load-balancer name is
still describable (the describe call succeeds), the tick reports not-done,
whatever the resolver returned — including a different new name. -/
theorem recreationTick_not_confirmed_while_old_describable
    (resolve : Except String String) (describeOld : Except String Unit)
    (oldLBName : String) (h : describeOld = .ok ()) :
    (recreationTick resolve describeOld oldLBName).1 = false := by
  subst h
  cases resolve <;> rfl

/-- C2, witness: the resolver already returns a different new name, yet the
tick is not confirmed because the old name still describes. -/
theorem recreationTick_not_confirmed_while_old_describable_witness :
    (recreationTick (Except.ok "lb-new") (Except.ok ()) "lb-old").1 = false :=
  recreationTick_not_confirmed_while_old_describable (Except.ok "lb-new")
    (Except.ok ()) "lb-old" rfl

/-- C3: a recreation-poll tick reports done exactly when the resolver
returned a non-empty name differing from the old one and the describe of the
old name failed (the old identity is no longer describable); and the tick
never returns an error value, so in every other combination polling
continues. -/
theorem recreationTick_confirmed_iff (resolve : Except String String)
    (describeOld : Except String Unit) (oldLBName : String) :
    ((recreationTick resolve describeOld oldLBName).1 = true ↔
      (∃ n, resolve = .ok n ∧ n ≠ "" ∧ n ≠ oldLBName) ∧
        ∃ e, describeOld = .error e) ∧
    (recreationTick resolve describeOld oldLBName).2 = none := by
  cases resolve with
  | error e => simp [recreationTick]
  | ok n =>
    cases describeOld with
    | error e => simp [recreationTick, Bool.and_eq_true, bne_iff_ne]
    | ok u =>
      cases u
      simp [recreationTick]

/-! Fixtures and helpers for the target-group claims. -/

/-- A provider with two target groups, the first of which refuses deletion. -/
def svcTargetGroupFails : ELBV2 where
  describeLoadBalancers := fun _ => .ok [⟨"arn-old"⟩]
  describeListeners := fun _ => .ok []
  deleteListener := fun _ => .ok ()
  describeTargetGroups := fun _ => .ok [⟨"tg-1"⟩, ⟨"tg-2"⟩]
  deleteTargetGroup := fun a => if a == "tg-1" then .error "ResourceInUse" else .ok ()

/-- A provider with a single target group whose deletion succeeds. -/
def svcOneTargetGroup : ELBV2 where
  describeLoadBalancers := fun _ => .ok [⟨"arn-old"⟩]
  describeListeners := fun _ => .ok []
  deleteListener := fun _ => .ok ()
  describeTargetGroups := fun _ => .ok [⟨"tg-arn-1"⟩]
  deleteTargetGroup := fun _ => .ok ()

/-- The target-group delete loop at its first failure: the deletions before
the failing target group are attempted and succeed, the failing one is
attempted, and nothing after it is attempted — the loop returns the wrapped
error at that point. -/
lemma deleteTargetGroupLoop_first_failure (svc : ELBV2) (pre : List TargetGroup)
    (bad : TargetGroup) (post : List TargetGroup) (e : String)
    (hpre : ∀ tg ∈ pre, svc.deleteTargetGroup tg.targetGroupArn = .ok ())
    (hbad : svc.deleteTargetGroup bad.targetGroupArn = .error e) :
    deleteTargetGroupLoop svc (pre ++ bad :: post) =
      (.error ("failed to delete target group " ++ bad.targetGroupArn ++ ": " ++ e),
       (pre.map fun tg => ApiCall.deleteTargetGroup tg.targetGroupArn) ++
         [ApiCall.deleteTargetGroup bad.targetGroupArn]) := by
  induction pre with
  | nil => simp [deleteTargetGroupLoop, hbad]
  | cons tg rest ih =>
    have h1 := hpre tg (by simp)
    have h2 := ih fun x hx => hpre x (by simp [hx])
    simp [deleteTargetGroupLoop, h1, h2]

/-- Projecting the DeleteTargetGroup calls out of a delete trace ending at
the failing call recovers the attempted ARNs. -/
lemma targetGroupDeleteCalls_pre_bad (pre : List TargetGroup) (bad : TargetGroup) :
    targetGroupDeleteCalls
      ((pre.map fun tg => ApiCall.deleteTargetGroup tg.targetGroupArn) ++
        [ApiCall.deleteTargetGroup bad.targetGroupArn]) =
      pre.map TargetGroup.targetGroupArn ++ [bad.targetGroupArn] := by
  induction pre with
  | nil => rfl
  | cons tg rest ih =>
    simpa [targetGroupDeleteCalls] using ih

/-- C4, counterexample: with two target groups where deleting the first
fails, cleanupTargetGroups never attempts the second deletion and returns an
error — refuting the claim that every deletion is attempted and failures are
aggregated tolerably. -/
theorem cleanupTargetGroups_aborts_on_failure_cex :
    ApiCall.deleteTargetGroup "tg-2" ∉ (cleanupTargetGroups svcTargetGroupFails "lb-old").2 ∧
    (cleanupTargetGroups svcTargetGroupFails "lb-old").1 =
      Except.error "failed to delete target group tg-1: ResourceInUse" := by
  decide

/-- C4, amended: a target-group deletion failure aborts the remaining
deletions — cleanupTargetGroups attempts exactly the target groups up to and
including the first failing one and returns a wrapped error; at its Fix.go
call site that error is logged as a warning, not propagated, so the teardown
pipeline is not stopped. -/
theorem cleanupTargetGroups_stops_at_first_failure (svc : ELBV2) (lbName : String)
    (pre : List TargetGroup) (bad : TargetGroup) (post : List TargetGroup) (e : String)
    (hdesc : svc.describeTargetGroups lbName = .ok (pre ++ bad :: post))
    (hpre : ∀ tg ∈ pre, svc.deleteTargetGroup tg.targetGroupArn = .ok ())
    (hbad : svc.deleteTargetGroup bad.targetGroupArn = .error e) :
    (cleanupTargetGroups svc lbName).1 =
      .error ("failed to delete target group " ++ bad.targetGroupArn ++ ": " ++ e) ∧
    targetGroupDeleteCalls (cleanupTargetGroups svc lbName).2 =
      pre.map TargetGroup.targetGroupArn ++ [bad.targetGroupArn] ∧
    (targetGroupCleanupStage svc lbName).1 =
      some ("Warning: Target group cleanup failed: " ++
        ("failed to delete target group " ++ bad.targetGroupArn ++ ": " ++ e)) := by
  have hloop := deleteTargetGroupLoop_first_failure svc pre bad post e hpre hbad
  have hres : (cleanupTargetGroups svc lbName).1 =
      .error ("failed to delete target group " ++ bad.targetGroupArn ++ ": " ++ e) := by
    simp [cleanupTargetGroups, hdesc, hloop]
  refine ⟨hres, ?_, ?_⟩
  · have htr : (cleanupTargetGroups svc lbName).2 =
        ApiCall.describeTargetGroups lbName ::
          ((pre.map fun tg => ApiCall.deleteTargetGroup tg.targetGroupArn) ++
            [ApiCall.deleteTargetGroup bad.targetGroupArn]) := by
      simp [cleanupTargetGroups, hdesc, hloop]
    rw [htr]
    show targetGroupDeleteCalls
        ((pre.map fun tg => ApiCall.deleteTargetGroup tg.targetGroupArn) ++
          [ApiCall.deleteTargetGroup bad.targetGroupArn]) = _
    exact targetGroupDeleteCalls_pre_bad pre bad
  · simp [targetGroupCleanupStage, hres]

/-- C4, witness for the amended claim: the first target group fails, only it
is attempted, and the Fix.go call site downgrades the error to a warning. -/
theorem cleanupTargetGroups_stops_at_first_failure_witness :
    (cleanupTargetGroups svcTargetGroupFails "lb-old").1 =
      Except.error "failed to delete target group tg-1: ResourceInUse" ∧
    targetGroupDeleteCalls (cleanupTargetGroups svcTargetGroupFails "lb-old").2 = ["tg-1"] ∧
    (targetGroupCleanupStage svcTargetGroupFails "lb-old").1 =
      some "Warning: Target group cleanup failed: failed to delete target group tg-1: ResourceInUse" := by
  have h := cleanupTargetGroups_stops_at_first_failure svcTargetGroupFails "lb-old"
    [] ⟨"tg-1"⟩ [⟨"tg-2"⟩] "ResourceInUse" rfl (by simp) rfl
  simpa using h

/-- C5: cleanupTargetGroups keys its DescribeTargetGroups request by the raw
load-balancer name it was given: on a concrete run the trace opens with a
describe-target-groups call carrying the name lb-old in the ARN-keyed field,
and no DescribeLoadBalancers resolution call appears anywhere in the trace. -/
theorem cleanupTargetGroups_passes_name_as_arn :
    (cleanupTargetGroups svcOneTargetGroup "lb-old").2 =
      [ApiCall.describeTargetGroups "lb-old", ApiCall.deleteTargetGroup "tg-arn-1"] ∧
    ((cleanupTargetGroups svcOneTargetGroup "lb-old").2.all fun c =>
      match c with
      | ApiCall.describeLoadBalancers _ => false
      | _ => true) = true := by
  decide

/-! Helpers and fixtures for the security-group stage. -/

/-- The security-group loop attempts one deletion per supplied identifier,
in order, whatever the individual outcomes are. -/
lemma deleteSecurityGroups_calls (svc : EC2) (ids : List String) :
    (deleteSecurityGroups svc ids).1 = ids.map ApiCall.deleteSecurityGroup := by
  induction ids with
  | nil => rfl
  | cons i rest ih => simp [deleteSecurityGroups, ih]

/-- The fatal output of the enhanced cleanup sequence depends only on the
listener and target-group stages: it is unchanged under any replacement of
the ec2 client, the waiter describability stream, or the wait deadline. -/
lemma enhancedCleanup_fatal_eq (elbv2Svc : ELBV2) (ec2a ec2b : EC2)
    (d d2 : Nat → Bool) (f f2 : Nat) (name : String) (ids : List String) :
    (enhancedCleanup elbv2Svc ec2a d f name ids).fatal =
      (enhancedCleanup elbv2Svc ec2b d2 f2 name ids).fatal := by
  cases hdl : (deleteListeners elbv2Svc name).1 with
  | runtimePanic msg => simp [enhancedCleanup, hdl]
  | value r =>
    cases r with
    | error e => simp [enhancedCleanup, hdl]
    | ok u =>
      cases htg : (cleanupTargetGroups elbv2Svc name).1 with
      | error e => simp [enhancedCleanup, hdl, htg]
      | ok v => simp [enhancedCleanup, hdl, htg]

/-- An ec2 client on which deleting a specific security group fails. -/
def ec2OneFails : EC2 where
  deleteSecurityGroup := fun i => if i == "sg-1" then .error "DependencyViolation" else .ok ()

/-- C8: every supplied security-group identifier is attempted, in order,
regardless of which deletions fail; each failing identifier yields a logged
warning; and the fatal output of the whole cleanup sequence does not depend
on the ec2 client at all, so no security-group failure can fail the
teardown. -/
theorem securityGroup_failures_tolerated (ec2a ec2b : EC2) (ids : List String)
    (elbv2Svc : ELBV2) (d : Nat → Bool) (dl : Nat) (name : String) :
    (deleteSecurityGroups ec2a ids).1 = ids.map ApiCall.deleteSecurityGroup ∧
    (∀ i ∈ ids, ∀ e, ec2a.deleteSecurityGroup i = .error e →
      ("Warning: Failed to delete SG " ++ i ++ ": " ++ e) ∈
        (deleteSecurityGroups ec2a ids).2) ∧
    (enhancedCleanup elbv2Svc ec2a d dl name ids).fatal =
      (enhancedCleanup elbv2Svc ec2b d dl name ids).fatal := by
  refine ⟨deleteSecurityGroups_calls ec2a ids, ?_,
    enhancedCleanup_fatal_eq elbv2Svc ec2a ec2b d d dl dl name ids⟩
  induction ids with
  | nil => simp
  | cons i rest ih =>
    intro x hx e he
    rcases List.mem_cons.mp hx with hx | hx
    · subst hx
      simp [deleteSecurityGroups, he]
    · have h2 := ih x hx e he
      cases hdi : ec2a.deleteSecurityGroup i <;>
        simp [deleteSecurityGroups, hdi, h2]

/-- C8, witness: with one failing and one succeeding identifier, both are
attempted and the failure appears among the logged warnings. -/
theorem securityGroup_failures_tolerated_witness :
    (deleteSecurityGroups ec2OneFails ["sg-1", "sg-2"]).1 =
      [ApiCall.deleteSecurityGroup "sg-1", ApiCall.deleteSecurityGroup "sg-2"] ∧
    "Warning: Failed to delete SG sg-1: DependencyViolation" ∈
      (deleteSecurityGroups ec2OneFails ["sg-1", "sg-2"]).2 := by
  have h := securityGroup_failures_tolerated ec2OneFails ec2OneFails ["sg-1", "sg-2"]
    svcLBGone (fun _ => true) 0 "lb-old"
  exact ⟨by simpa using h.1, h.2.1 "sg-1" (by simp) "DependencyViolation" rfl⟩

/-! Stage-ordering machinery for the enhanced cleanup sequence. -/

/-- Two traced calls are ordered when the first belongs to a stage no later
than the second. -/
def stageRankLe (a b : StageTag × ApiCall) : Prop := a.1.rank ≤ b.1.rank

/-- A block of calls all tagged with one stage is trivially ordered. -/
lemma pairwise_rank_tagged (t : StageTag) (l : List ApiCall) :
    (l.map fun c => (t, c)).Pairwise stageRankLe := by
  induction l with
  | nil => simp
  | cons c rest ih =>
    refine List.pairwise_cons.mpr ⟨?_, ih⟩
    intro b hb
    rcases List.mem_map.mp hb with ⟨x, hx, rfl⟩
    exact le_refl _

/-- Every call of a tagged block has the rank of its tag, bounded above. -/
lemma rank_le_of_mem_tagged (t : StageTag) (l : List ApiCall) {n : Nat}
    (h : t.rank ≤ n) : ∀ a ∈ l.map fun c => (t, c), a.1.rank ≤ n := by
  intro a ha
  rcases List.mem_map.mp ha with ⟨x, hx, rfl⟩
  exact h

/-- Every call of a tagged block has the rank of its tag, bounded below. -/
lemma le_rank_of_mem_tagged (t : StageTag) (l : List ApiCall) {n : Nat}
    (h : n ≤ t.rank) : ∀ a ∈ l.map fun c => (t, c), n ≤ a.1.rank := by
  intro a ha
  rcases List.mem_map.mp ha with ⟨x, hx, rfl⟩
  exact h

/-- An upper rank bound passes through concatenation. -/
lemma rank_le_append {l1 l2 : List (StageTag × ApiCall)} {n : Nat}
    (h1 : ∀ a ∈ l1, a.1.rank ≤ n) (h2 : ∀ a ∈ l2, a.1.rank ≤ n) :
    ∀ a ∈ l1 ++ l2, a.1.rank ≤ n := by
  intro a ha
  rcases List.mem_append.mp ha with ha | ha
  · exact h1 a ha
  · exact h2 a ha

/-- Concatenating two ordered trace pieces separated by a rank bound yields
an ordered trace. -/
lemma pairwise_rank_append {l1 l2 : List (StageTag × ApiCall)} (n : Nat)
    (h1 : l1.Pairwise stageRankLe) (h2 : l2.Pairwise stageRankLe)
    (hle1 : ∀ a ∈ l1, a.1.rank ≤ n) (hle2 : ∀ b ∈ l2, n ≤ b.1.rank) :
    (l1 ++ l2).Pairwise stageRankLe :=
  List.pairwise_append.mpr
    ⟨h1, h2, fun a ha b hb => le_trans (hle1 a ha) (hle2 b hb)⟩

/-- The trace of deleteListeners always opens with the describe call that
resolves the name. -/
lemma deleteListeners_trace_head (svc : ELBV2) (lbName : String) :
    ∃ rest, (deleteListeners svc lbName).2 =
      ApiCall.describeLoadBalancers [lbName] :: rest := by
  cases hd : svc.describeLoadBalancers [lbName] with
  | error e => exact ⟨[], by simp [deleteListeners, hd]⟩
  | ok lbs =>
    cases lbs with
    | nil => exact ⟨[], by simp [deleteListeners, hd]⟩
    | cons lb rest2 =>
      cases hl : svc.describeListeners lb.loadBalancerArn with
      | error e =>
        exact ⟨[ApiCall.describeListeners lb.loadBalancerArn],
          by simp [deleteListeners, hd, hl]⟩
      | ok ls =>
        exact ⟨ApiCall.describeListeners lb.loadBalancerArn ::
          (deleteListenerLoop svc ls).2, by simp [deleteListeners, hd, hl]⟩

/-- The trace of cleanupTargetGroups always opens with the target-group
listing call. -/
lemma cleanupTargetGroups_trace_head (svc : ELBV2) (lbName : String) :
    ∃ rest, (cleanupTargetGroups svc lbName).2 =
      ApiCall.describeTargetGroups lbName :: rest := by
  unfold cleanupTargetGroups
  cases svc.describeTargetGroups lbName with
  | error e => exact ⟨[], rfl⟩
  | ok tgs => exact ⟨_, rfl⟩

/-- An ec2 client on which every deletion succeeds. -/
def ec2AllOk : EC2 where
  deleteSecurityGroup := fun _ => .ok ()

/-- C6: in every run of the enhanced cleanup sequence the issued provider
calls respect the fixed stage order — every call of a later stage comes
after every call of an earlier stage (listeners, then target groups, then
security groups, then the deletion wait) — and in a run that aborts nothing,
with at least one orphan security group supplied, all four stages appear in
the trace. -/
theorem enhancedCleanup_stage_order (elbv2Svc : ELBV2) (ec2Svc : EC2)
    (d : Nat → Bool) (dl : Nat) (name : String) (ids : List String) :
    (enhancedCleanup elbv2Svc ec2Svc d dl name ids).trace.Pairwise stageRankLe ∧
    ((enhancedCleanup elbv2Svc ec2Svc d dl name ids).fatal = none → ids ≠ [] →
      (∃ c, (StageTag.listeners, c) ∈
        (enhancedCleanup elbv2Svc ec2Svc d dl name ids).trace) ∧
      (∃ c, (StageTag.targetGroups, c) ∈
        (enhancedCleanup elbv2Svc ec2Svc d dl name ids).trace) ∧
      (∃ c, (StageTag.securityGroups, c) ∈
        (enhancedCleanup elbv2Svc ec2Svc d dl name ids).trace) ∧
      (∃ c, (StageTag.waitDeleted, c) ∈
        (enhancedCleanup elbv2Svc ec2Svc d dl name ids).trace)) := by
  cases hdl : (deleteListeners elbv2Svc name).1 with
  | runtimePanic msg =>
    constructor
    · simp only [enhancedCleanup, hdl]
      exact pairwise_rank_tagged _ _
    · intro hfat
      simp [enhancedCleanup, hdl] at hfat
  | value r =>
    cases r with
    | error e =>
      constructor
      · simp only [enhancedCleanup, hdl]
        exact pairwise_rank_tagged _ _
      · intro hfat
        simp [enhancedCleanup, hdl] at hfat
    | ok u =>
      cases u
      cases htg : (cleanupTargetGroups elbv2Svc name).1 with
      | error e =>
        constructor
        · simp only [enhancedCleanup, hdl, htg]
          exact pairwise_rank_append 1 (pairwise_rank_tagged _ _)
            (pairwise_rank_tagged _ _)
            (rank_le_of_mem_tagged _ _ (by decide))
            (le_rank_of_mem_tagged _ _ (by decide))
        · intro hfat
          simp [enhancedCleanup, hdl, htg] at hfat
      | ok v =>
        cases v
        have htrace : (enhancedCleanup elbv2Svc ec2Svc d dl name ids).trace =
            (((deleteListeners elbv2Svc name).2.map fun c => (StageTag.listeners, c)) ++
              ((cleanupTargetGroups elbv2Svc name).2.map fun c => (StageTag.targetGroups, c)) ++
              ((deleteSecurityGroups ec2Svc ids).1.map fun c => (StageTag.securityGroups, c))) ++
              [(StageTag.waitDeleted, ApiCall.waitUntilLoadBalancerDeleted [name])] := by
          simp [enhancedCleanup, hdl, htg]
        constructor
        · rw [htrace]
          refine pairwise_rank_append 3 ?_ ?_ ?_ ?_
          · refine pairwise_rank_append 2 ?_ (pairwise_rank_tagged _ _) ?_
              (le_rank_of_mem_tagged _ _ (by decide))
            · exact pairwise_rank_append 1 (pairwise_rank_tagged _ _)
                (pairwise_rank_tagged _ _)
                (rank_le_of_mem_tagged _ _ (by decide))
                (le_rank_of_mem_tagged _ _ (by decide))
            · exact rank_le_append
                (rank_le_of_mem_tagged _ _ (by decide))
                (rank_le_of_mem_tagged _ _ (by decide))
          · exact List.pairwise_singleton _ _
          · exact rank_le_append
              (rank_le_append
                (rank_le_of_mem_tagged _ _ (by decide))
                (rank_le_of_mem_tagged _ _ (by decide)))
              (rank_le_of_mem_tagged _ _ (by decide))
          · intro b hb
            rcases List.mem_singleton.mp hb with rfl
            exact le_refl _
        · intro hfat hids
          rw [htrace]
          obtain ⟨rest1, h1⟩ := deleteListeners_trace_head elbv2Svc name
          obtain ⟨rest2, h2⟩ := cleanupTargetGroups_trace_head elbv2Svc name
          refine ⟨⟨ApiCall.describeLoadBalancers [name], ?_⟩,
            ⟨ApiCall.describeTargetGroups name, ?_⟩, ?_, ?_⟩
          · simp [h1]
          · simp [h2]
          · match ids, hids with
            | i :: rest, _ =>
              refine ⟨ApiCall.deleteSecurityGroup i, ?_⟩
              simp [deleteSecurityGroups_calls]
          · exact ⟨ApiCall.waitUntilLoadBalancerDeleted [name], by simp⟩

/-- C6, witness: an all-success run with one orphan security group has an
ordered trace in which all four stages appear. -/
theorem enhancedCleanup_stage_order_witness :
    (enhancedCleanup svcTwoListeners ec2AllOk (fun _ => false) 1 "lb-old"
      ["sg-1"]).trace.Pairwise stageRankLe ∧
    (∃ c, (StageTag.listeners, c) ∈
      (enhancedCleanup svcTwoListeners ec2AllOk (fun _ => false) 1 "lb-old"
        ["sg-1"]).trace) ∧
    (∃ c, (StageTag.targetGroups, c) ∈
      (enhancedCleanup svcTwoListeners ec2AllOk (fun _ => false) 1 "lb-old"
        ["sg-1"]).trace) ∧
    (∃ c, (StageTag.securityGroups, c) ∈
      (enhancedCleanup svcTwoListeners ec2AllOk (fun _ => false) 1 "lb-old"
        ["sg-1"]).trace) ∧
    (∃ c, (StageTag.waitDeleted, c) ∈
      (enhancedCleanup svcTwoListeners ec2AllOk (fun _ => false) 1 "lb-old"
        ["sg-1"]).trace) := by
  have h := enhancedCleanup_stage_order svcTwoListeners ec2AllOk (fun _ => false) 1
    "lb-old" ["sg-1"]
  exact ⟨h.1, h.2 rfl (by simp)⟩

/-! Waiter lemmas. -/

/-- The waiter confirms absence exactly when some tick within the budget
finds the load balancer no longer describable. -/
lemma waiterLoop_confirmed_iff (d : Nat → Bool) (t f : Nat) :
    waiterLoop d t f = .confirmedAbsent ↔ ∃ k, k < f ∧ d (t + k) = false := by
  induction f generalizing t with
  | zero => simp [waiterLoop]
  | succ f ih =>
    simp only [waiterLoop]
    by_cases hd : d t
    · rw [if_pos hd, ih (t + 1)]
      constructor
      · rintro ⟨k, hk, hdk⟩
        refine ⟨k + 1, by omega, ?_⟩
        have he : t + (k + 1) = t + 1 + k := by omega
        rw [he]
        exact hdk
      · rintro ⟨k, hk, hdk⟩
        cases k with
        | zero =>
          rw [Nat.add_zero] at hdk
          rw [hdk] at hd
          cases hd
        | succ k =>
          refine ⟨k, by omega, ?_⟩
          have he : t + 1 + k = t + (k + 1) := by omega
          rw [he]
          exact hdk
    · rw [if_neg hd]
      simp only [Bool.not_eq_true] at hd
      constructor
      · intro _
        exact ⟨0, by omega, by simpa using hd⟩
      · intro _
        rfl

/-- The outcome component of the wait stage is the waiter outcome. -/
lemma waitStage_fst (d : Nat → Bool) (f : Nat) :
    (waitStage d f).1 = waiterLoop d 0 f := by
  unfold waitStage
  cases waiterLoop d 0 f <;> rfl

/-- C9: the deletion waiter has exactly the two terminal outcomes confirmed
absence and deadline exceeded; it confirms exactly when some tick within the
budget finds the load balancer gone; a deadline overrun produces only a
logged warning; and neither the fatal output of the cleanup sequence nor the
outcome of the subsequent recreation poll depends on the waiter inputs in
any way. -/
theorem waiter_two_outcomes_nonfatal (d d2 : Nat → Bool) (f f2 : Nat)
    (elbv2Svc : ELBV2) (ec2Svc : EC2) (name : String) (ids : List String)
    (resolveAt : Nat → Except String String)
    (describeOldAt : Nat → Except String Unit) (pollDeadline : Nat) :
    ((waitStage d f).1 = .confirmedAbsent ∨ (waitStage d f).1 = .deadlineExceeded) ∧
    ((waitStage d f).1 = .confirmedAbsent ↔ ∃ k, k < f ∧ d k = false) ∧
    ((waitStage d f).2 =
      if (waitStage d f).1 = .deadlineExceeded then ["LB deletion wait failed"] else []) ∧
    (enhancedCleanup elbv2Svc ec2Svc d f name ids).fatal =
      (enhancedCleanup elbv2Svc ec2Svc d2 f2 name ids).fatal ∧
    (testFlow elbv2Svc ec2Svc d f name ids resolveAt describeOldAt pollDeadline).2 =
      (testFlow elbv2Svc ec2Svc d2 f2 name ids resolveAt describeOldAt pollDeadline).2 := by
  have hfat := enhancedCleanup_fatal_eq elbv2Svc ec2Svc ec2Svc d d2 f f2 name ids
  refine ⟨?_, ?_, ?_, hfat, ?_⟩
  · cases hws : (waitStage d f).1 with
    | confirmedAbsent => exact Or.inl rfl
    | deadlineExceeded => exact Or.inr rfl
  · rw [waitStage_fst, waiterLoop_confirmed_iff]
    simp
  · unfold waitStage
    cases waiterLoop d 0 f <;> simp
  · simp only [testFlow]
    cases h1 : (enhancedCleanup elbv2Svc ec2Svc d f name ids).fatal with
    | some e =>
      rw [h1] at hfat
      rw [← hfat]
    | none =>
      rw [h1] at hfat
      rw [← hfat]

end RR
